import Mathlib

def TWINE_TAG : String := "YCEWFAF"

/-- Python `tag in value` on strings is substring containment; embedded as
decidable list-infix containment on the character lists. -/
def strContains (hay needle : String) : Bool :=
  decide (needle.toList <:+: hay.toList)

/-- One entry of `message["payload"]["headers"]`: a name/value pair. -/
structure Header where
  name : String
  value : String

/-- The `payload` field of a fetched message detail. -/
structure MessagePayload where
  headers : List Header

/-- A fetched message detail, as used by `check_if_message_is_warming`:
its `id` and its `payload.headers`. -/
structure Message where
  id : String
  payload : MessagePayload

/-- The `for header in headers` loop of `check_if_message_is_warming`
(lines 248-253): at the first header named "Subject" it appends the
message id to `results` when the tag occurs in the value, and returns in
either case; other headers are skipped. -/
def subjectScan (message_id : String) : List Header → List String → List String
  | [], results => results
  | h :: rest, results =>
    if h.name == "Subject" then
      if strContains h.value TWINE_TAG then results ++ [message_id] else results
    else subjectScan message_id rest results

/-- `check_if_message_is_warming(message, results, exception)`
(lines 230-253).  The mutable `results` list is passed and returned
explicitly.  In the Gmail batch API a callback receives a response exactly
when `exception` is `None`; the `(none, none)` case never arises in a run. -/
def check_if_message_is_warming
    (message : Option Message) (results : List String) (exception : Option String) :
    List String :=
  match exception with
  | some _ => results
  | none =>
    match message with
    | none => results
    | some m => subjectScan m.id m.payload.headers results

/-- The value of the first header named "Subject", when present. -/
def firstSubjectValue (headers : List Header) : Option String :=
  (headers.find? (fun h => h.name == "Subject")).map (fun h => h.value)

/-- The marker test actually applied by the callback: the first Subject
header exists and its value contains the tag. -/
def message_matches (m : Message) : Bool :=
  match firstSubjectValue m.payload.headers with
  | some v => strContains v TWINE_TAG
  | none => false

/-- `max_batch_len = 30` from `check_messages` line 205. -/
def max_batch_len : Nat := 30

/-- The `for i, message_id in enumerate(message_ids)` loop of
`check_messages` (lines 209-224), tracking the current unexecuted batch
and the batches already executed (the sleeps are modelled separately).
Each loop step adds the id to the current batch and, when
`i % max_batch_len == 0`, executes it and starts a fresh batch. -/
def execLoop : Nat → List String → List String → List (List String) →
    List (List String) × List String
  | _, [], cur, acc => (acc, cur)
  | i, message_id :: rest, cur, acc =>
    let batch := cur ++ [message_id]
    if i % max_batch_len = 0 then execLoop (i + 1) rest [] (acc ++ [batch])
    else execLoop (i + 1) rest batch acc

/-- State of `check_messages` after its main loop: executed batches and the
still-unexecuted current batch. -/
def check_messages_exec (message_ids : List String) :
    List (List String) × List String :=
  execLoop 0 message_ids [] []

/-- The physical batch calls `check_messages` actually submits: the batches
executed inside the loop, plus the trailing one exactly when
`len(message_ids) % max_batch_len != 0` (lines 225-226). -/
def executedBatches (message_ids : List String) : List (List String) :=
  let st := check_messages_exec message_ids
  if message_ids.length % max_batch_len ≠ 0 then st.1 ++ [st.2] else st.1

/-- All message ids whose detail fetch is actually submitted to the remote
API by `check_messages`, in submission order. -/
def executedFetchIds (message_ids : List String) : List String :=
  (executedBatches message_ids).flatten

/-- The per-item callback deliveries of one classification run: the batch
library hands each callback either a response or an exception, and the
shared `results` list is threaded through. -/
def runCallbacksFrom (outcomes : List (Except String Message)) (results : List String) :
    List String :=
  outcomes.foldl
    (fun rs o =>
      match o with
      | Except.ok m => check_if_message_is_warming (some m) rs none
      | Except.error e => check_if_message_is_warming none rs (some e))
    results

/-- The `results` list returned by a classification run over the given
fetch outcomes, starting from the empty list (line 207). -/
def runCallbacks (outcomes : List (Except String Message)) : List String :=
  runCallbacksFrom outcomes []

/-- The full return value of `check_messages`: the fetch of every submitted
id is answered by the oracle `detail` and the callbacks fill `results`. -/
def check_messages_results (detail : String → Except String Message)
    (message_ids : List String) : List String :=
  runCallbacks ((executedFetchIds message_ids).map detail)

/-- The match contribution of one fetch outcome: the id when the fetch
succeeded and the marker test holds, nothing otherwise. -/
def matchResult : Except String Message → Option String
  | Except.ok m => if message_matches m then some m.id else none
  | Except.error _ => none

/-- One `batchModify` call issued by `update_labels` (lines 74-81): the id
chunk together with the label mutations of the request body. -/
structure BatchModifyCall where
  ids : List String
  removeLabelIds : List String
  addLabelIds : List String

/-- The sequence of `batchModify` calls issued by `update_labels`
(lines 72-81): Python `for i in range(0, len(message_ids), 1000)` with the
slice `message_ids[i : i + 1000]`, here with `i = 1000 * k` and
`range(0, n, 1000)` having `(n + 999) / 1000` elements. -/
def update_labels_calls (message_ids : List String) (warming_label_id : String) :
    List BatchModifyCall :=
  (List.range ((message_ids.length + 999) / 1000)).map (fun k =>
    { ids := (message_ids.drop (1000 * k)).take 1000
      removeLabelIds := ["INBOX"]
      addLabelIds := [warming_label_id] })

/-- A remote Gmail label as listed/created via the labels API: its id, its
name and the visibility flags used by `add_warming_label_if_not_present`. -/
structure GmailLabel where
  id : String
  name : String
  labelListVisibility : String
  messageListVisibility : String

/-- `add_warming_label_if_not_present` (lines 84-121), with the remote
label list as explicit state.  `next((l for l in labels if l["name"] ==
"Warming"), None)` is the first match; when absent, the create call
appends a label named "Warming" whose id is assigned by the remote
(parameter `fresh`).  Returns the label id and the new remote state. -/
def add_warming_label_if_not_present (fresh : List GmailLabel → String)
    (state : List GmailLabel) : String × List GmailLabel :=
  let labels := state
  match labels.find? (fun l => l.name == "Warming") with
  | some warming_label => (warming_label.id, state)
  | none =>
    let created : GmailLabel :=
      { id := fresh state
        name := "Warming"
        labelListVisibility := "labelHide"
        messageListVisibility := "show" }
    (created.id, state ++ [created])

/-- Number of remote labels named "Warming". -/
def countWarming (state : List GmailLabel) : Nat :=
  (state.filter (fun l => l.name == "Warming")).length

/-- The elapsed-time argument the live loop passes to `time.sleep`
(line 327): `3600 - (end_time - start_time)`, with no floor at zero. -/
def main_sleep_argument (elapsed : ℚ) : ℚ := 3600 - elapsed

/-- Python `time.sleep` semantics: a negative argument raises
`ValueError: sleep length must be non-negative` instead of sleeping. -/
def time_sleep (d : ℚ) : Except String Unit :=
  if d < 0 then Except.error "ValueError: sleep length must be non-negative"
  else Except.ok ()

/-- `max_requests_per_second = 1.3` from `check_messages` line 206. -/
def max_requests_per_second : ℚ := 1.3

/-- The minimum inter-batch interval `1 / max_requests_per_second`. -/
def min_interval : ℚ := 1 / max_requests_per_second

/-- The clock value after one micro-batch cycle of `check_messages`
(lines 218-224): the batch is submitted at `s` (the last `start_time`),
finishes at `end_time = s + d`, and when `end_time - start_time` is below
the minimum interval the loop sleeps for exactly the remainder; the
result is the next `start_time`. -/
def nextStart (s d : ℚ) : ℚ :=
  let endTime := s + d
  if endTime - s < min_interval then endTime + (min_interval - (endTime - s))
  else endTime

/-- Submission start times of the successive micro-batches, given the
execute duration of each batch; local bookkeeping between batches is
free in this clock model. -/
def submissionTimesFrom : List ℚ → ℚ → List ℚ
  | [], _ => []
  | d :: ds, s => s :: submissionTimesFrom ds (nextStart s d)

/-- A 7-character alphanumeric token. -/
def isAlnum7 (cs : List Char) : Bool :=
  cs.length == 7 && cs.all Char.isAlphanum

/-- The trailing 18 characters demanded by the pattern policy:
a space, a bar, a space, a 7-character alphanumeric token, a space, and a
second 7-character alphanumeric token reaching the end of the string. -/
def patternTail (cs : List Char) : Bool :=
  match cs with
  | ' ' :: '|' :: ' ' :: rest =>
    isAlnum7 (rest.take 7) &&
      (match rest.drop 7 with
       | ' ' :: b => isAlnum7 b
       | _ => false)
  | _ => false

/-- Modelled from the spec: the live-loop source under `src/` only
implements the substring policy; the alternative pattern-in-header policy
(Subject matches `<anything> | <7-char alnum> <7-char alnum>`, anchored at
line start and matched to the end of the string) comes from a second sweep
variant of the repository that is not present under `src/`.  True iff the
value ends in a bar-separated pair of 7-character alphanumeric tokens,
preceded by an arbitrary prefix reaching back to the start of the line. -/
def pattern_policy (s : String) : Bool :=
  let cs := s.toList
  decide (18 ≤ cs.length) && patternTail (cs.drop (cs.length - 18))

/-- One page returned by `messages().list`: the message stubs (each with
its id) and the optional continuation token (`nextPageToken`). -/
structure MessageRef where
  id : String

/-- The result of one paged listing call. -/
structure ListResult where
  messages : List MessageRef
  nextPageToken : Option String

/-- `get_ids_to_update(messages)` (lines 44-57): classify the page's ids
with `check_messages`; the trailing `is not None` filter never drops
anything because the callbacks only ever append id strings. -/
def get_ids_to_update (detail : String → Except String Message)
    (messages : List MessageRef) : List String :=
  check_messages_results detail (messages.map MessageRef.id)

/-- The successive results the remote hands back across repeated listing
calls, starting from a given first result: the next call passes the
current `nextPageToken` to `fetch`. -/
def chainFrom (fetch : Option String → ListResult) (r : ListResult) : Nat → ListResult
  | 0 => r
  | n + 1 => fetch (chainFrom fetch r n).nextPageToken

/-- The `while "nextPageToken" in result` loop of
`process_historical_messages` (lines 139-169), starting from an already
fetched result: each round classifies the page and records the
`update_labels` input, then follows the token.  `fuel` bounds the number
of follow-up listing calls; `none` means the loop was still running when
the fuel ran out. -/
def sweepFrom (fetch : Option String → ListResult) (detail : String → Except String Message) :
    Nat → ListResult → Option (List (List String))
  | fuel, r =>
    let upd := get_ids_to_update detail r.messages
    match r.nextPageToken with
    | none => some [upd]
    | some t =>
      match fuel with
      | 0 => none
      | fuel' + 1 => (sweepFrom fetch detail fuel' (fetch (some t))).map (fun rest => upd :: rest)

/-- `process_historical_messages` (lines 124-170): the initial listing
call (no page token) followed by the token-driven loop; the returned list
holds, in order, the id list passed to `update_labels` for every page. -/
def process_historical_messages (fetch : Option String → ListResult)
    (detail : String → Except String Message) (fuel : Nat) :
    Option (List (List String)) :=
  sweepFrom fetch detail fuel (fetch none)

/-- Thirty message ids: a positive multiple of the micro-batch size 30. -/
def ids30 : List String :=
  ["m00", "m01", "m02", "m03", "m04", "m05", "m06", "m07", "m08", "m09",
   "m10", "m11", "m12", "m13", "m14", "m15", "m16", "m17", "m18", "m19",
   "m20", "m21", "m22", "m23", "m24", "m25", "m26", "m27", "m28", "m29"]

/-- A message whose Subject header value contains the marker tag. -/
def msgC2 : Message :=
  ⟨"idA", ⟨[⟨"From", "alice"⟩, ⟨"Subject", "hello YCEWFAF now"⟩]⟩⟩

/-- A successful fetch outcome whose Subject contains the marker tag. -/
def okWarming (i : String) : Except String Message :=
  Except.ok ⟨i, ⟨[⟨"Subject", "warmup YCEWFAF 42"⟩]⟩⟩

/-- Ten fetch outcomes: nine matching messages and one failed fetch. -/
def scenario10 : List (Except String Message) :=
  [okWarming "m1", okWarming "m2", okWarming "m3", okWarming "m4",
   Except.error "HttpError 500 fetching m5",
   okWarming "m6", okWarming "m7", okWarming "m8", okWarming "m9", okWarming "m10"]

/-- A two-page remote listing: the first page carries a continuation
token, the second does not. -/
def fetchEx : Option String → ListResult
  | none => { messages := [⟨"a"⟩], nextPageToken := some "t1" }
  | some _ => { messages := [⟨"b"⟩], nextPageToken := none }

/-- A detail oracle answering every fetch with a matching message. -/
def detailEx : String → Except String Message :=
  fun i => Except.ok ⟨i, ⟨[⟨"Subject", "YCEWFAF hello"⟩]⟩⟩

/-- A message whose first Subject header lacks the tag while a second
Subject header carries it. -/
def msgC10 : Message :=
  ⟨"idB", ⟨[⟨"From", "alice"⟩, ⟨"Subject", "ordinary newsletter"⟩,
            ⟨"Subject", "YCEWFAF"⟩]⟩⟩

/-!
Shallow embedding of `src/main.py` from the instantly-email-warming-filter
repository, together with proofs about the claims of its specification.

The Python script scans a Gmail inbox, classifies messages as "warming"
messages by a marker substring in the Subject header, and relabels the
matches out of the inbox.  Remote-API effects (message fetches, label
listing and creation, bulk label mutation, the pagination of list calls,
wall-clock sleeps) are embedded as explicit state passing: the remote is a
parameter (an oracle function or an explicit state value) and each operation
returns the calls it issues or the new state.
-/

/-- The marker tag from `src/main.py` line 24 (`TWINE_TAG = "YCEWFAF"`). -/

lemma subjectScan_eq (message_id : String) (headers : List Header) (results : List String) :
    subjectScan message_id headers results =
      match firstSubjectValue headers with
      | some v => if strContains v TWINE_TAG then results ++ [message_id] else results
      | none => results := by
  induction headers with
  | nil => rfl
  | cons h rest ih =>
    by_cases hname : (h.name == "Subject") = true
    · simp [subjectScan, firstSubjectValue, List.find?_cons, hname]
    · simp only [Bool.not_eq_true] at hname
      simpa [subjectScan, firstSubjectValue, List.find?_cons, hname] using ih

lemma check_warming_ok (m : Message) (results : List String) :
    check_if_message_is_warming (some m) results none =
      if message_matches m then results ++ [m.id] else results := by
  rcases h : firstSubjectValue m.payload.headers with _ | v <;>
    simp [check_if_message_is_warming, subjectScan_eq, message_matches, h]

lemma execLoop_sizes (ids : List String) :
    ∀ (i : Nat) (cur : List String) (acc : List (List String)),
      (∀ b ∈ acc, b.length ≤ max_batch_len) →
      cur.length ≤ (if i % max_batch_len = 0 then max_batch_len - 1 else i % max_batch_len - 1) →
      (∀ b ∈ (execLoop i ids cur acc).1, b.length ≤ max_batch_len) ∧
        (execLoop i ids cur acc).2.length ≤ max_batch_len - 1 := by
  induction ids with
  | nil =>
    intro i cur acc hacc hcur
    refine ⟨fun b hb => hacc b hb, ?_⟩
    have h30 : max_batch_len = 30 := rfl
    simp only [execLoop]
    rw [h30] at hcur ⊢
    split at hcur <;> omega
  | cons id rest ih =>
    intro i cur acc hacc hcur
    simp only [execLoop]
    by_cases h30 : i % max_batch_len = 0
    · simp only [h30, if_true]
      refine ih (i + 1) [] (acc ++ [cur ++ [id]]) ?_ ?_
      · intro b hb
        rcases List.mem_append.mp hb with hb | hb
        · exact hacc b hb
        · simp only [List.mem_singleton] at hb
          subst hb
          simp only [h30, if_true] at hcur
          simp only [List.length_append, List.length_singleton]
          simp [max_batch_len] at hcur ⊢
          omega
      · simp
    · simp only [h30, if_false]
      refine ih (i + 1) (cur ++ [id]) acc hacc ?_
      simp only [List.length_append, List.length_singleton]
      simp only [h30, if_false] at hcur
      simp only [max_batch_len] at hcur h30 ⊢
      split <;> omega

lemma runCallbacksFrom_eq (outcomes : List (Except String Message)) :
    ∀ results : List String,
      runCallbacksFrom outcomes results = results ++ outcomes.filterMap matchResult := by
  induction outcomes with
  | nil => intro results; simp [runCallbacksFrom]
  | cons o rest ih =>
    intro results
    cases o with
    | ok m =>
      have hstep : runCallbacksFrom (Except.ok m :: rest) results =
          runCallbacksFrom rest (check_if_message_is_warming (some m) results none) := rfl
      rw [hstep, check_warming_ok, ih]
      by_cases hm : message_matches m = true
      · simp [hm, matchResult]
      · simp only [Bool.not_eq_true] at hm
        simp [hm, matchResult]
    | error e =>
      have hstep : runCallbacksFrom (Except.error e :: rest) results =
          runCallbacksFrom rest (check_if_message_is_warming none results (some e)) := rfl
      rw [hstep, ih]
      simp [check_if_message_is_warming, matchResult]

lemma executedBatches_sizes (message_ids : List String) :
    ∀ b ∈ executedBatches message_ids, b.length ≤ max_batch_len := by
  intro b hb
  have h := execLoop_sizes message_ids 0 [] [] (by simp) (by simp)
  simp only [executedBatches, check_messages_exec] at hb
  split at hb
  · rcases List.mem_append.mp hb with hb | hb
    · exact h.1 b hb
    · simp only [List.mem_singleton] at hb
      subst hb
      exact le_trans h.2 (by simp [max_batch_len])
  · exact h.1 b hb

lemma flatten_chunks :
    ∀ (c : Nat) (l : List String), l.length ≤ 1000 * c →
      ((List.range c).map (fun k => (l.drop (1000 * k)).take 1000)).flatten = l := by
  intro c
  induction c with
  | zero =>
    intro l hl
    simp at hl
    simp [hl]
  | succ c ih =>
    intro l hl
    rw [List.range_succ_eq_map]
    simp only [List.map_cons, List.map_map, List.flatten_cons]
    have hfun : ((fun k => (l.drop (1000 * k)).take 1000) ∘ Nat.succ) =
        (fun k => ((l.drop 1000).drop (1000 * k)).take 1000) := by
      funext k
      simp only [Function.comp_apply, List.drop_drop]
      congr 2
      omega
    rw [hfun, ih (l.drop 1000) (by simp; omega)]
    simp [Nat.mul_zero, List.drop_zero, List.take_append_drop]

lemma find?_append_of_none {α : Type} (p : α → Bool) (s t : List α)
    (h : s.find? p = none) : (s ++ t).find? p = t.find? p := by
  induction s with
  | nil => simp
  | cons a s ih =>
    rw [List.find?_cons] at h
    rw [List.cons_append, List.find?_cons]
    cases hpa : p a with
    | true => simp [hpa] at h
    | false =>
      simp only [hpa] at h ⊢
      exact ih h

lemma nextStart_ge (s d : ℚ) : s + min_interval ≤ nextStart s d := by
  simp only [nextStart]
  split
  · ring_nf
    exact le_refl _
  · rename_i h
    have : min_interval ≤ s + d - s := le_of_not_lt h
    linarith

lemma submissionTimesFrom_chain (ds : List ℚ) :
    ∀ s : ℚ, List.Chain' (fun a b => a + min_interval ≤ b) (submissionTimesFrom ds s) := by
  induction ds with
  | nil => intro s; simp [submissionTimesFrom]
  | cons d ds ih =>
    intro s
    rw [submissionTimesFrom]
    rcases ds with _ | ⟨d2, ds2⟩
    · simp [submissionTimesFrom]
    · rw [List.chain'_cons']
      refine ⟨?_, ih (nextStart s d)⟩
      intro b hb
      rw [submissionTimesFrom] at hb
      simp only [List.head?_cons, Option.mem_def, Option.some.injEq] at hb
      subst hb
      exact nextStart_ge s d

lemma chainFrom_shift (fetch : Option String → ListResult) (r : ListResult) :
    ∀ n : Nat, chainFrom fetch r (n + 1) = chainFrom fetch (fetch r.nextPageToken) n := by
  intro n
  induction n with
  | zero => rfl
  | succ n ih =>
    show fetch (chainFrom fetch r (n + 1)).nextPageToken = _
    rw [ih]
    rfl

lemma sweepFrom_none (fetch : Option String → ListResult)
    (detail : String → Except String Message) (fuel : Nat) (r : ListResult)
    (hr : r.nextPageToken = none) :
    sweepFrom fetch detail fuel r = some [get_ids_to_update detail r.messages] := by
  rw [sweepFrom, hr]

lemma sweepFrom_some (fetch : Option String → ListResult)
    (detail : String → Except String Message) (fuel : Nat) (r : ListResult) (t : String)
    (ht : r.nextPageToken = some t) :
    sweepFrom fetch detail (fuel + 1) r =
      (sweepFrom fetch detail fuel (fetch (some t))).map
        (fun rest => get_ids_to_update detail r.messages :: rest) := by
  rw [sweepFrom, ht]

lemma sweepFrom_pages (fetch : Option String → ListResult)
    (detail : String → Except String Message) :
    ∀ (k : Nat) (fuel : Nat) (r : ListResult), k ≤ fuel →
      (∀ j, j < k → ((chainFrom fetch r j).nextPageToken).isSome = true) →
      (chainFrom fetch r k).nextPageToken = none →
      sweepFrom fetch detail fuel r =
        some ((List.range (k + 1)).map
          (fun j => get_ids_to_update detail (chainFrom fetch r j).messages)) := by
  intro k
  induction k with
  | zero =>
    intro fuel r _ _ hnone
    rw [sweepFrom_none fetch detail fuel r hnone]
    simp [List.range_succ, chainFrom]
  | succ k ih =>
    intro fuel r hfuel hsome hnone
    have h0 : (r.nextPageToken).isSome = true := hsome 0 (Nat.succ_pos k)
    rcases Option.isSome_iff_exists.mp h0 with ⟨t, ht⟩
    rcases Nat.exists_eq_add_of_le' (Nat.one_le_iff_ne_zero.mpr (by omega) : 1 ≤ fuel) with ⟨fuel', rfl⟩
    rw [sweepFrom_some fetch detail fuel' r t ht]
    have hnext : fetch (some t) = fetch r.nextPageToken := by rw [ht]
    have ihr := ih fuel' (fetch r.nextPageToken) (by omega)
      (fun j hj => by rw [← chainFrom_shift]; exact hsome (j + 1) (by omega))
      (by rw [← chainFrom_shift]; exact hnone)
    rw [hnext, ihr]
    simp only [Option.map_some']
    congr 1
    conv_rhs => rw [List.range_succ_eq_map]
    simp only [List.map_cons, List.map_map]
    congr 1
    have hfun2 : (fun j => get_ids_to_update detail (chainFrom fetch (fetch r.nextPageToken) j).messages) =
        ((fun j => get_ids_to_update detail (chainFrom fetch r j).messages) ∘ Nat.succ) := by
      funext j
      simp only [Function.comp_apply, Nat.succ_eq_add_one]
      rw [chainFrom_shift]
    rw [hfun2]

lemma pattern_policy_append (p a b : String)
    (ha7 : a.toList.length = 7) (hb7 : b.toList.length = 7)
    (haAl : ∀ c ∈ a.toList, c.isAlphanum = true)
    (hbAl : ∀ c ∈ b.toList, c.isAlphanum = true) :
    pattern_policy (p ++ " | " ++ a ++ " " ++ b) = true := by
  have hdata : (p ++ " | " ++ a ++ " " ++ b).toList
      = p.toList ++ (' ' :: '|' :: ' ' :: (a.toList ++ ' ' :: b.toList)) := by
    show (p ++ " | " ++ a ++ " " ++ b).data
      = p.data ++ (' ' :: '|' :: ' ' :: (a.data ++ ' ' :: b.data))
    simp only [String.data_append]
    simp
  have hlen : (p ++ " | " ++ a ++ " " ++ b).toList.length = p.toList.length + 18 := by
    rw [hdata]
    simp only [List.length_append, List.length_cons]
    rw [ha7, hb7]
  have hdropAmount : (p ++ " | " ++ a ++ " " ++ b).toList.length - 18 = p.toList.length := by
    omega
  have hisAlnumA : isAlnum7 a.toList = true := by
    simp only [isAlnum7, Bool.and_eq_true, beq_iff_eq, List.all_eq_true]
    exact ⟨ha7, haAl⟩
  have hisAlnumB : isAlnum7 b.toList = true := by
    simp only [isAlnum7, Bool.and_eq_true, beq_iff_eq, List.all_eq_true]
    exact ⟨hb7, hbAl⟩
  have hdrop : (p ++ " | " ++ a ++ " " ++ b).toList.drop
      ((p ++ " | " ++ a ++ " " ++ b).toList.length - 18)
      = ' ' :: '|' :: ' ' :: (a.toList ++ ' ' :: b.toList) := by
    rw [hdropAmount, hdata, List.drop_left]
  have htake : (a.toList ++ ' ' :: b.toList).take 7 = a.toList := by
    rw [← ha7, List.take_left]
  have hdrop7 : (a.toList ++ ' ' :: b.toList).drop 7 = ' ' :: b.toList := by
    rw [← ha7, List.drop_left]
  have htail : patternTail (' ' :: '|' :: ' ' :: (a.toList ++ ' ' :: b.toList)) = true := by
    rw [patternTail, htake, hdrop7, hisAlnumA]
    simp only [Bool.true_and]
    show isAlnum7 b.toList = true
    exact hisAlnumB
  simp only [pattern_policy]
  rw [hdrop, htail]
  simp only [Bool.and_true, decide_eq_true_eq]
  rw [hlen]
  omega

lemma pattern_policy_complete (s : String) (h : pattern_policy s = true) :
    ∃ p a b : String, s = p ++ " | " ++ a ++ " " ++ b
      ∧ a.toList.length = 7 ∧ b.toList.length = 7
      ∧ (∀ c ∈ a.toList, c.isAlphanum = true)
      ∧ (∀ c ∈ b.toList, c.isAlphanum = true) := by
  simp only [pattern_policy, Bool.and_eq_true, decide_eq_true_eq] at h
  obtain ⟨hlen, htail⟩ := h
  rw [patternTail.eq_def] at htail
  split at htail
  · rename_i rest heq
    rw [Bool.and_eq_true] at htail
    obtain ⟨hA, hB⟩ := htail
    split at hB
    · rename_i bl heq2
      simp only [isAlnum7, Bool.and_eq_true, beq_iff_eq, List.all_eq_true] at hA hB
      have heqd : s.data.drop (s.data.length - 18) = ' ' :: '|' :: ' ' :: rest := heq
      have heq2d : rest.drop 7 = ' ' :: bl := heq2
      have hrestsplit : rest = rest.take 7 ++ ' ' :: bl := by
        conv_lhs => rw [← List.take_append_drop 7 rest, heq2d]
      have hsplit : s.data = s.data.take (s.data.length - 18)
          ++ (' ' :: '|' :: ' ' :: (rest.take 7 ++ ' ' :: bl)) := by
        conv_lhs => rw [← List.take_append_drop (s.data.length - 18) s.data, heqd, hrestsplit]
      refine ⟨⟨s.data.take (s.data.length - 18)⟩, ⟨rest.take 7⟩, ⟨bl⟩, ?_, hA.1, hB.1, hA.2, hB.2⟩
      apply String.ext
      have hd : (((⟨s.data.take (s.data.length - 18)⟩ : String) ++ " | "
          ++ (⟨rest.take 7⟩ : String) ++ " " ++ (⟨bl⟩ : String)).data)
          = s.data.take (s.data.length - 18)
            ++ (' ' :: '|' :: ' ' :: (rest.take 7 ++ ' ' :: bl)) := by
        simp only [String.data_append]
        simp
      rw [hd]
      exact hsplit
    · simp at hB
  · simp at htail

/-- Claim C1 (refuted by the code): `check_messages` was meant to submit a
detail fetch for every identifier, but its `i % 30 == 0` trigger fires at
index 0 and the trailing batch only executes when the list length is not a
multiple of 30 — so for the 30-element input `ids30` only the very first
id is ever fetched and the other 29 are silently dropped. -/
theorem check_messages_drops_full_batch :
    ids30.length = 30 ∧ executedFetchIds ids30 = ["m00"] := by
  constructor
  · decide
  · decide

/-- Claim C2: with a first Subject header of value `v` present, the
substring-policy classifier appends the message id to the results exactly
when the fixed tag is a substring of `v`, and leaves the results unchanged
when it is not. -/
theorem substring_policy_iff (m : Message) (results : List String) (v : String)
    (h : firstSubjectValue m.payload.headers = some v) :
    (TWINE_TAG.toList <:+: v.toList →
      check_if_message_is_warming (some m) results none = results ++ [m.id])
    ∧ (¬ TWINE_TAG.toList <:+: v.toList →
      check_if_message_is_warming (some m) results none = results) := by
  constructor
  · intro hin
    rw [check_warming_ok]
    have hsc : strContains v TWINE_TAG = true := by
      rw [strContains]
      exact decide_eq_true hin
    have hmm : message_matches m = true := by
      simp only [message_matches, h, hsc]
    simp [hmm]
  · intro hout
    rw [check_warming_ok]
    have hsc : strContains v TWINE_TAG = false := by
      rw [strContains]
      exact decide_eq_false hout
    have hmm : message_matches m = false := by
      simp only [message_matches, h, hsc]
    simp [hmm]

theorem substring_policy_iff_witness :
    check_if_message_is_warming (some msgC2) [] none = ["idA"] :=
  (substring_policy_iff msgC2 [] "hello YCEWFAF now" (by decide)).1 (by decide)

/-- Claim C3: `update_labels` partitions its input into consecutive chunks
of at most 1000, issuing one `batchModify` call per chunk that removes the
inbox label and adds the warming label; the concatenation of the chunks is
exactly the input (each id appears exactly once overall), and a
2500-element input yields exactly 3 calls of sizes 1000, 1000, 500. -/
theorem update_labels_batching (message_ids : List String) (warming_label_id : String) :
    ((update_labels_calls message_ids warming_label_id).map BatchModifyCall.ids).flatten
      = message_ids
    ∧ (∀ c ∈ update_labels_calls message_ids warming_label_id,
        c.ids.length ≤ 1000 ∧ c.removeLabelIds = ["INBOX"] ∧ c.addLabelIds = [warming_label_id])
    ∧ (message_ids.length = 2500 →
        (update_labels_calls message_ids warming_label_id).map (fun c => c.ids.length)
          = [1000, 1000, 500]) := by
  refine ⟨?_, ?_, ?_⟩
  · rw [update_labels_calls, List.map_map]
    exact flatten_chunks _ message_ids (by omega)
  · intro c hc
    rw [update_labels_calls] at hc
    rcases List.mem_map.mp hc with ⟨k, _, rfl⟩
    exact ⟨List.length_take_le _ _, rfl, rfl⟩
  · intro h2500
    have hc : (message_ids.length + 999) / 1000 = 3 := by rw [h2500]
    rw [update_labels_calls, hc]
    have hr : List.range 3 = [0, 1, 2] := by rfl
    rw [hr]
    simp only [List.map_cons, List.map_nil, List.length_take, List.length_drop, h2500]
    decide

theorem update_labels_batching_witness :
    (update_labels_calls (List.replicate 2500 "m") "Label_2").map (fun c => c.ids.length)
      = [1000, 1000, 500] :=
  (update_labels_batching (List.replicate 2500 "m") "Label_2").2.2
    (by rw [List.length_replicate])

/-- Claim C4 counterexample: from an initial remote state that already
holds two labels named "Warming", running the label-ensure operation twice
leaves two such labels, not exactly one as the claim demands of every
initial state. -/
theorem ensure_label_duplicate_counterexample :
    countWarming
      (add_warming_label_if_not_present (fun _ => "L3")
        (add_warming_label_if_not_present (fun _ => "L3")
          [⟨"L1", "Warming", "labelHide", "show"⟩,
           ⟨"L2", "Warming", "labelHide", "show"⟩]).2).2 = 2 := by
  decide

/-- Claim C4 (amended): for every initial remote state holding at most one
label named "Warming", running the label-ensure operation twice returns
the same label id both times, the second run leaves the remote state
untouched (labels are searched by name before any create), and exactly one
label named "Warming" exists afterward. -/
theorem ensure_label_idempotent (fresh : List GmailLabel → String) (s : List GmailLabel)
    (h : countWarming s ≤ 1) :
    (add_warming_label_if_not_present fresh (add_warming_label_if_not_present fresh s).2).1
      = (add_warming_label_if_not_present fresh s).1
    ∧ (add_warming_label_if_not_present fresh (add_warming_label_if_not_present fresh s).2).2
      = (add_warming_label_if_not_present fresh s).2
    ∧ countWarming (add_warming_label_if_not_present fresh s).2 = 1 := by
  rcases hfind : s.find? (fun l => l.name == "Warming") with _ | l
  · have hnone : ∀ x ∈ s, ¬ (x.name == "Warming") = true := List.find?_eq_none.mp hfind
    have h1 : add_warming_label_if_not_present fresh s =
        (fresh s, s ++ [{ id := fresh s, name := "Warming",
                          labelListVisibility := "labelHide",
                          messageListVisibility := "show" }]) := by
      simp [add_warming_label_if_not_present, hfind]
    have hfind2 : (s ++ [({ id := fresh s, name := "Warming",
                            labelListVisibility := "labelHide",
                            messageListVisibility := "show" } : GmailLabel)]).find?
        (fun l => l.name == "Warming")
        = some { id := fresh s, name := "Warming",
                 labelListVisibility := "labelHide",
                 messageListVisibility := "show" } := by
      rw [find?_append_of_none _ _ _ hfind]
      rfl
    have h2 : add_warming_label_if_not_present fresh
        ((fresh s, s ++ [({ id := fresh s, name := "Warming",
                            labelListVisibility := "labelHide",
                            messageListVisibility := "show" } : GmailLabel)]) :
          String × List GmailLabel).2
        = (fresh s, s ++ [{ id := fresh s, name := "Warming",
                            labelListVisibility := "labelHide",
                            messageListVisibility := "show" }]) := by
      show add_warming_label_if_not_present fresh
        (s ++ [({ id := fresh s, name := "Warming",
                  labelListVisibility := "labelHide",
                  messageListVisibility := "show" } : GmailLabel)]) = _
      simp [add_warming_label_if_not_present, hfind2]
    rw [h1, h2]
    refine ⟨rfl, rfl, ?_⟩
    show countWarming (s ++ [{ id := fresh s, name := "Warming",
                               labelListVisibility := "labelHide",
                               messageListVisibility := "show" }]) = 1
    have hfil : s.filter (fun l => l.name == "Warming") = [] :=
      List.filter_eq_nil_iff.mpr hnone
    simp [countWarming, List.filter_append, hfil]
  · have hl := List.find?_some hfind
    have h1 : add_warming_label_if_not_present fresh s = (l.id, s) := by
      simp [add_warming_label_if_not_present, hfind]
    have h2 : add_warming_label_if_not_present fresh
        (((l.id, s) : String × List GmailLabel)).2 = (l.id, s) := h1
    rw [h1, h2]
    refine ⟨rfl, rfl, ?_⟩
    show countWarming s = 1
    have hpos : 0 < countWarming s := by
      have hmem : l ∈ s := List.mem_of_find?_eq_some hfind
      exact List.length_pos_of_mem (List.mem_filter.mpr ⟨hmem, hl⟩)
    omega

theorem ensure_label_idempotent_witness :
    countWarming [] ≤ 1
    ∧ countWarming (add_warming_label_if_not_present (fun _ => "L1") []).2 = 1 :=
  ⟨by decide, (ensure_label_idempotent (fun _ => "L1") [] (by decide)).2.2⟩

/-- Claim C5: per-item fetch failures are tolerated.  A classification run
over any sequence of fetch outcomes returns exactly the ids of the
successful fetches whose Subject matches the marker — failed fetches are
skipped without aborting the run — and in the concrete 10-item scenario
with one failed fetch and nine matches the result is exactly the nine
matching ids. -/
theorem classification_fault_tolerance :
    (∀ outcomes : List (Except String Message),
      runCallbacks outcomes = outcomes.filterMap matchResult)
    ∧ runCallbacks scenario10
        = ["m1", "m2", "m3", "m4", "m6", "m7", "m8", "m9", "m10"] := by
  constructor
  · intro outcomes
    rw [runCallbacks, runCallbacksFrom_eq]
    simp
  · decide

/-- Claim C6 (refuted by the code): the live loop passes
`3600 - elapsed` to `time.sleep` with no floor at zero, so an iteration
that takes 4000 seconds hands the sleep primitive a negative argument —
which raises a ValueError instead of starting the next iteration
immediately — and differs from the `max(0, 3600 - elapsed)` the claim
describes. -/
theorem main_sleep_goes_negative :
    main_sleep_argument 4000 < 0
    ∧ time_sleep (main_sleep_argument 4000)
        = Except.error "ValueError: sleep length must be non-negative"
    ∧ main_sleep_argument 4000 ≠ max 0 (3600 - (4000 : ℚ)) := by
  have hneg : main_sleep_argument 4000 < 0 := by
    rw [main_sleep_argument]
    norm_num
  refine ⟨hneg, ?_, ?_⟩
  · rw [time_sleep, if_pos hneg]
  · have hmax : max (0 : ℚ) (3600 - 4000) = 0 := by
      rw [max_eq_left]
      norm_num
    rw [hmax]
    exact ne_of_lt hneg

/-- Claim C7: every physical batch call submitted by `check_messages`
holds at most 30 fetch requests, and in the clock model of its throttling
loop (sleep for the remainder whenever a micro-batch cycle beat the
minimum inter-batch interval) any two consecutive micro-batch submissions
start at least `min_interval = 1/1.3` seconds apart. -/
theorem check_messages_rate_limited (message_ids : List String) :
    (∀ b ∈ executedBatches message_ids, b.length ≤ max_batch_len)
    ∧ (∀ (durs : List ℚ) (s : ℚ),
        List.Chain' (fun t1 t2 => t1 + min_interval ≤ t2) (submissionTimesFrom durs s)) :=
  ⟨executedBatches_sizes message_ids, fun durs s => submissionTimesFrom_chain durs s⟩

theorem check_messages_rate_limited_witness :
    ["x"] ∈ executedBatches ["x"] ∧ (["x"] : List String).length ≤ max_batch_len :=
  ⟨by decide, (check_messages_rate_limited ["x"]).1 ["x"] (by decide)⟩

/-- Claim C8: the historical sweep follows continuation tokens until a
result arrives without one; when the token chain reaches a terminal page
after `k` follow-up calls (and the fuel covers them), the sweep terminates
and the `update_labels` inputs are exactly the classification results of
the `k + 1` returned pages, in order, one entry per page. -/
theorem historical_pagination (fetch : Option String → ListResult)
    (detail : String → Except String Message) (k fuel : Nat) (hfuel : k ≤ fuel)
    (hsome : ∀ j, j < k → ((chainFrom fetch (fetch none) j).nextPageToken).isSome = true)
    (hnone : (chainFrom fetch (fetch none) k).nextPageToken = none) :
    process_historical_messages fetch detail fuel
      = some ((List.range (k + 1)).map
          (fun j => get_ids_to_update detail (chainFrom fetch (fetch none) j).messages)) :=
  sweepFrom_pages fetch detail k fuel (fetch none) hfuel hsome hnone

theorem historical_pagination_witness :
    process_historical_messages fetchEx detailEx 1
      = some ((List.range 2).map
          (fun j => get_ids_to_update detailEx (chainFrom fetchEx (fetchEx none) j).messages)) :=
  historical_pagination fetchEx detailEx 1 1 (by decide) (by decide) (by rfl)

/-- Claim C9 (spec-modelled): the pattern-in-header policy accepts every
Subject value of the shape `<anything> | <7-char alnum> <7-char alnum>`
(anchored at the start, matched to the end), and accepts nothing else:
whenever it returns true the value decomposes into that shape, so every
value missing the trailing two tokens or carrying a token of the wrong
length — the spec's examples included — returns false. -/
theorem pattern_policy_spec :
    (∀ p a b : String,
      a.toList.length = 7 → b.toList.length = 7 →
      (∀ c ∈ a.toList, c.isAlphanum = true) →
      (∀ c ∈ b.toList, c.isAlphanum = true) →
      pattern_policy (p ++ " | " ++ a ++ " " ++ b) = true)
    ∧ (∀ s : String, pattern_policy s = true →
        ∃ p a b : String, s = p ++ " | " ++ a ++ " " ++ b
          ∧ a.toList.length = 7 ∧ b.toList.length = 7
          ∧ (∀ c ∈ a.toList, c.isAlphanum = true)
          ∧ (∀ c ∈ b.toList, c.isAlphanum = true))
    ∧ pattern_policy "Re: hello | AB12CD3" = false
    ∧ pattern_policy "Re: hello | AB12CD3 XY98Z1" = false := by
  refine ⟨fun p a b ha hb haAl hbAl => pattern_policy_append p a b ha hb haAl hbAl,
    fun s hs => pattern_policy_complete s hs, ?_, ?_⟩
  · decide
  · decide

theorem pattern_policy_spec_witness :
    pattern_policy ("Re: hello" ++ " | " ++ "AB12CD3" ++ " " ++ "XY98Z12") = true :=
  pattern_policy_spec.1 "Re: hello" "AB12CD3" "XY98Z12"
    (by decide) (by decide) (by decide) (by decide)

/-- Claim C10: classification looks only at the first header named
"Subject".  When that first Subject value lacks the tag the message is
never matched, no matter what any later Subject header holds, and a
message with no Subject header at all is never matched. -/
theorem first_subject_only (message_id : String) (results : List String)
    (pre post : List Header) (h : Header)
    (hpre : ∀ g ∈ pre, (g.name == "Subject") = false)
    (hname : h.name = "Subject")
    (hno : ¬ TWINE_TAG.toList <:+: h.value.toList) :
    check_if_message_is_warming (some ⟨message_id, ⟨pre ++ h :: post⟩⟩) results none = results
    ∧ ∀ (id2 : String) (rs2 : List String) (hs : List Header),
        (∀ g ∈ hs, (g.name == "Subject") = false) →
        check_if_message_is_warming (some ⟨id2, ⟨hs⟩⟩) rs2 none = rs2 := by
  constructor
  · have hfind : (pre ++ h :: post).find? (fun g => g.name == "Subject") = some h := by
      rw [find?_append_of_none _ _ _
        (List.find?_eq_none.mpr (fun x hx => by simp [hpre x hx]))]
      rw [List.find?_cons]
      simp [hname]
    have hsc : strContains h.value TWINE_TAG = false := by
      rw [strContains]
      exact decide_eq_false hno
    have hmm : message_matches ⟨message_id, ⟨pre ++ h :: post⟩⟩ = false := by
      simp only [message_matches, firstSubjectValue, hfind, Option.map_some', hsc]
    rw [check_warming_ok, hmm]
    simp
  · intro id2 rs2 hs hhs
    have hfind2 : hs.find? (fun g => g.name == "Subject") = none :=
      List.find?_eq_none.mpr (fun x hx => by simp [hhs x hx])
    have hmm : message_matches ⟨id2, ⟨hs⟩⟩ = false := by
      simp only [message_matches, firstSubjectValue, hfind2, Option.map_none']
    rw [check_warming_ok, hmm]
    simp

theorem first_subject_only_witness :
    check_if_message_is_warming (some msgC10) [] none = [] :=
  (first_subject_only "idB" [] [⟨"From", "alice"⟩] [⟨"Subject", "YCEWFAF"⟩]
    ⟨"Subject", "ordinary newsletter"⟩ (by decide) (by rfl) (by decide)).1
